import Mathlib

/-!
# todo-auth-multi-user: session gate and compact id allocation

A shallow embedding of `main.go`: the `caller` middleware, the four task
handlers (`Add`, `List`, `Update`, `Delete`) and the SQL statements they send,
evaluated over an explicit database state (the `session` and `tasks`
relations).  Every handler is a function from the database before the request
to the database after it together with the trace of what the handler did
(statements sent, responses written, calls into package `auth`, process exit).

Storage failures are not decided by the program; they are inputs, carried by
`Env` next to the clock.
-/

namespace Todo

/-! ## Data model -/

/-- Go struct `Task` (main.go, lines 18-21). -/
structure Task where
  Id : Int
  Desc : String
deriving DecidableEq, Repr

/-- A row of relation `tasks`, with the three columns the statements of
main.go name: `id`, `description`, `username`. -/
structure TaskRow where
  id : Int
  description : String
  username : String
deriving DecidableEq, Repr

/-- A row of relation `session`, with the columns read at main.go line 41.
`created_at` is an instant in nanoseconds. -/
structure SessionRow where
  session_id : String
  username : String
  created_at : Int
deriving DecidableEq, Repr

/-- The database behind the global handle `db` (main.go, line 23). -/
structure DB where
  session : List SessionRow
  tasks : List TaskRow
deriving DecidableEq, Repr

/-- What a handler reads of `*http.Request`: the result of
`r.Cookie("session_id")` (`none` when it returns an error) and the result of
decoding the JSON body into a `Task` (`none` when `Decode` returns an error). -/
structure Request where
  cookie : Option String
  body : Option Task
deriving DecidableEq, Repr

/-- Errors of `database/sql` as far as main.go tells them apart:
`sql.ErrNoRows`, a duplicate key reported by the store, anything else. -/
inductive SqlErr where
  | ErrNoRows
  | duplicateKey
  | driver
deriving DecidableEq, Repr

/-- What is outside the program's control during one request: the clock
(`time.Now().UTC()`, in nanoseconds), which storage calls fail, and the two
facts about relation `tasks` that its declaration, which main.go does not
contain, would settle: whether it has a key on `(id, username)`, and the largest
value `idMax` of the integer type of column `id`, in which the store computes
`t1.id + 1` (`2^31 - 1` for `INTEGER`, `2^63 - 1` for `BIGINT`). -/
structure Env where
  now : Int
  gateLookupFails : Bool
  userLookupFails : Bool
  idQueryFails : Bool
  execFails : Bool
  rowsAffectedFails : Bool
  listQueryFails : Bool
  scanFails : TaskRow → Bool
  taskKey : Bool
  idMax : Int

/-- The SQL statements main.go sends. -/
inductive Stmt where
  | sessionByToken (token : String)
  | userByToken (token : String)
  | idSelection (username : String)
  | insertTask (id : Int) (description username : String)
  | listTasks (token : String)
  | updateTask (id : Int) (description username : String)
  | deleteTask (id : Int) (username : String)
deriving DecidableEq, Repr

/-- Bodies of the JSON responses written on success. -/
inductive Reply where
  | added (task : Task)
  | noTaskFound
  | tasks (ts : List Task)
  | updated (task : Task)
  | deleted
deriving DecidableEq, Repr

/-- What a handler does that is visible from outside, in order. -/
inductive Event where
  | dbCall (s : Stmt)
  | httpError (msg : String) (status : Nat)
  | json (body : Reply)
  | logout
  | serve
  | fatal
  | nilDeref
deriving DecidableEq, Repr

/-- The result of running a handler: the database afterwards and the trace. -/
structure Run where
  db : DB
  trace : List Event
deriving DecidableEq, Repr

/-- An `http.HandlerFunc` over the explicit state. -/
abbrev Handler := Env → DB → Request → Run

/-! ## Time -/

/-- Go constant `time.Minute`, in nanoseconds. -/
def Minute : Int := 60 * 1000000000

/-- Largest `time.Duration` (an int64 count of nanoseconds). -/
def maxDuration : Int := 2 ^ 63 - 1

/-- Smallest `time.Duration`. -/
def minDuration : Int := -(2 ^ 63)

/-- Go method `Time.Sub` on wall-clock instants: the difference, saturated at the ends of
the int64 range of `time.Duration`. -/
def Sub (t u : Int) : Int :=
  if t - u > maxDuration then maxDuration
  else if t - u < minDuration then minDuration
  else t - u

/-! ## The session ledger -/

/-- The statement of main.go line 41 followed by `Scan`:
`SELECT username, created_at FROM session WHERE session_id = $1`.
`QueryRow` keeps the first row; no row is `sql.ErrNoRows`. -/
def sessionQuery (env : Env) (db : DB) (sessionID : String) :
    Except SqlErr (String × Int) :=
  if env.gateLookupFails then .error .driver
  else
    match db.session.find? (fun s => decide (s.session_id = sessionID)) with
    | none => .error .ErrNoRows
    | some s => .ok (s.username, s.created_at)

/-- The statement of main.go lines 134, 221 and 272 followed by `Scan`:
`select username from session where session_id=$1`. -/
def userQuery (env : Env) (db : DB) (sessionID : String) : Except SqlErr String :=
  if env.userLookupFails then .error .driver
  else
    match db.session.find? (fun s => decide (s.session_id = sessionID)) with
    | none => .error .ErrNoRows
    | some s => .ok s.username

/-- Modelled from the spec: `auth.Logout` lives in package `todo/auth`, which is
not in main.go.  The spec gives session teardown as
"delete the ledger entry bound to this token", `delete(token) -> ok`,
idempotent.  The token is the request's `session_id` cookie. -/
def Logout (db : DB) (r : Request) : DB :=
  match r.cookie with
  | none => db
  | some token =>
    { db with session := db.session.filter (fun s => decide (s.session_id ≠ token)) }

/-! ## The middleware -/

/-- The middleware `caller` (main.go, lines 26-61). -/
def caller (next : Handler) : Handler := fun env db r =>
  match r.cookie with
  | none => ⟨db, [.httpError "Unauthorized" 401]⟩
  | some sessionID =>
    if sessionID = "" then ⟨db, [.httpError "Unauthorized" 401]⟩
    else
      match sessionQuery env db sessionID with
      | .error .ErrNoRows =>
        ⟨db, [.dbCall (.sessionByToken sessionID), .httpError "User not found" 404]⟩
      | .error _ =>
        ⟨db, [.dbCall (.sessionByToken sessionID), .httpError "Error fetching tasks" 500]⟩
      | .ok (_, created_at) =>
        let duration := Sub env.now created_at
        if duration ≥ 5 * Minute then
          ⟨Logout db r,
            [.dbCall (.sessionByToken sessionID), .logout, .httpError "Unauthorized" 401]⟩
        else
          let run := next env db r
          ⟨run.db, .dbCall (.sessionByToken sessionID) :: .serve :: run.trace⟩

/-! ## Id selection -/

/-- Whether the store's addition `t1.id + 1` leaves the integer type of column
`id`, whose largest value is `idMax`, for some row `t1` of the user.  The inner
`SELECT` of the id-selection statement computes `t1.id + 1` for every such row,
and the store raises an out-of-range error instead of wrapping around. -/
def successorOverflows (idMax : Int) (tasks : List TaskRow) (username : String) : Bool :=
  tasks.any (fun t1 => decide (t1.username = username ∧ idMax < t1.id + 1))

/-- The rows of the inner `SELECT` of the id-selection statement (main.go, lines
146-150), as the values `t1.id + 1`: one for each row `t1` of the user for which
the left join on `t1.id + 1 = t2.id AND t1.username = t2.username` finds no
`t2`, so that `t2.id IS NULL`.  The statement fails when `t1.id + 1` is out of
range for a row of the user. -/
def successorGaps (idMax : Int) (tasks : List TaskRow) (username : String) :
    Except SqlErr (List Int) :=
  if successorOverflows idMax tasks username then .error .driver
  else
    .ok ((tasks.filter (fun t1 =>
      decide (t1.username = username) &&
        !(tasks.any (fun t2 =>
          decide (t1.id + 1 = t2.id ∧ t1.username = t2.username))))).map
      (fun t1 => t1.id + 1))

/-- The id-selection statement of `Add` (main.go, lines 141-152), with `idMax`
the largest value of the integer type of column `id`.

The `WHEN` operand is a scalar subquery over the caller's rows with `id = 1`:
no row is `NULL`, one row is its `id`, more than one row is an error of the
store.  The `ELSE` branch is evaluated only when that `id` is not `NULL`; it is
`COALESCE(MIN(t1.id + 1), 1)` over the rows of `successorGaps`, and fails when
they fail. -/
def idSelection (idMax : Int) (tasks : List TaskRow) (username : String) :
    Except SqlErr Int :=
  match tasks.filter (fun t => decide (t.id = 1 ∧ t.username = username)) with
  | [] => .ok 1
  | [_] =>
    match successorGaps idMax tasks username with
    | .error e => .error e
    | .ok gaps => .ok (gaps.min?.getD 1)
  | _ :: _ :: _ => .error .driver

/-- Largest value of Go type `int` (64 bits). -/
def maxInt : Int := 2 ^ 63 - 1

/-- Smallest value of Go type `int`. -/
def minInt : Int := -(2 ^ 63)

/-- The call `db.QueryRow(..).Scan(&newTask.Id)` of `Add` (main.go, lines
141-152): the id-selection statement, its value converted to Go `int`, which
fails when the value does not fit. -/
def idQuery (env : Env) (tasks : List TaskRow) (username : String) : Except SqlErr Int :=
  if env.idQueryFails then .error .driver
  else
    match idSelection env.idMax tasks username with
    | .error e => .error e
    | .ok v => if minInt ≤ v ∧ v ≤ maxInt then .ok v else .error .driver

/-- Modelled from the spec: the declaration of relation `tasks` is not in
main.go.  The spec gives `insert(id, username, desc) -> ok | duplicate`
with a uniqueness constraint on `(id, username)`; `env.taskKey` says whether the
relation has it.  The statement is main.go line 159. -/
def insertTask (env : Env) (tasks : List TaskRow) (row : TaskRow) :
    Except SqlErr (List TaskRow) :=
  if env.execFails then .error .driver
  else if env.taskKey &&
      tasks.any (fun t => decide (t.id = row.id ∧ t.username = row.username)) then
    .error .duplicateKey
  else .ok (tasks ++ [row])

/-! ## Handlers -/

/-- The insertion and the response of `Add` (main.go, lines 158-171), run on the
database as it is when the `INSERT` arrives. -/
def AddInsert (env : Env) (db : DB) (newTask : Task) (username : String) : Run :=
  match insertTask env db.tasks ⟨newTask.Id, newTask.Desc, username⟩ with
  | .error _ =>
    ⟨db, [.dbCall (.insertTask newTask.Id newTask.Desc username),
          .httpError "Error inserting task" 500]⟩
  | .ok tasks =>
    ⟨{ db with tasks := tasks },
      [.dbCall (.insertTask newTask.Id newTask.Desc username), .json (.added newTask)]⟩

/-- Prepend events to the trace of a run. -/
def Run.after (evs : List Event) (run : Run) : Run :=
  ⟨run.db, evs ++ run.trace⟩

/-- Handler `Add` (main.go, lines 118-173). -/
def Add : Handler := fun env db r =>
  match r.body with
  | none => ⟨db, [.httpError "Invalid request" 400]⟩
  | some newTask =>
    if newTask.Desc = "" then ⟨db, [.httpError "Invalid request" 400]⟩
    else
      match r.cookie with
      | none => ⟨db, [.nilDeref]⟩
      | some token =>
        match userQuery env db token with
        | .error _ => ⟨db, [.dbCall (.userByToken token), .httpError "unauthorized" 401]⟩
        | .ok username =>
          match idQuery env db.tasks username with
          | .error _ =>
            ⟨db, [.dbCall (.userByToken token), .dbCall (.idSelection username),
                  .httpError "Error generating ID" 500]⟩
          | .ok id =>
            (AddInsert env db { newTask with Id := id } username).after
              [.dbCall (.userByToken token), .dbCall (.idSelection username)]

/-- The rows of the statement of `List` (main.go, line 181):
`select t.id, t.description FROM tasks t join session s on
t.username=s.username where s.session_id = $1`. -/
def listRows (db : DB) (token : String) : List TaskRow :=
  db.tasks.flatMap (fun t =>
    (db.session.filter (fun s =>
      decide (t.username = s.username ∧ s.session_id = token))).map (fun _ => t))

/-- The loop of `List` (main.go, lines 188-194): `none` when `rows.Scan` fails
on a row, which is where `log.Fatal` is called. -/
def scanRows (scanFails : TaskRow → Bool) : List TaskRow → Option (List Task)
  | [] => some []
  | row :: rest =>
    if scanFails row then none
    else (scanRows scanFails rest).map (fun ts => ⟨row.id, row.description⟩ :: ts)

/-- Handler `List` (main.go, lines 175-203). -/
def ListTasks : Handler := fun env db r =>
  match r.cookie with
  | none => ⟨db, [.nilDeref]⟩
  | some token =>
    if env.listQueryFails then
      ⟨db, [.dbCall (.listTasks token), .httpError "Error fetching tasks" 500]⟩
    else
      match scanRows env.scanFails (listRows db token) with
      | none => ⟨db, [.dbCall (.listTasks token), .fatal]⟩
      | some tasks =>
        if tasks.length = 0 then ⟨db, [.dbCall (.listTasks token), .json .noTaskFound]⟩
        else ⟨db, [.dbCall (.listTasks token), .json (.tasks tasks)]⟩

/-- Whether a row is the one a statement with `WHERE id = $1 and username = $3`
addresses. -/
def matchesRow (id : Int) (username : String) (t : TaskRow) : Bool :=
  decide (t.id = id ∧ t.username = username)

/-- Handler `Update` (main.go, lines 205-253). -/
def Update : Handler := fun env db r =>
  match r.body with
  | none => ⟨db, [.httpError "Invalid task ID or description" 400]⟩
  | some newTask =>
    if newTask.Id ≤ 0 ∨ newTask.Desc = "" then
      ⟨db, [.httpError "Invalid task ID or description" 400]⟩
    else
      match r.cookie with
      | none => ⟨db, [.nilDeref]⟩
      | some token =>
        match userQuery env db token with
        | .error _ => ⟨db, [.dbCall (.userByToken token), .httpError "unauthorized" 401]⟩
        | .ok username =>
          let sent : List Event :=
            [.dbCall (.userByToken token),
             .dbCall (.updateTask newTask.Id newTask.Desc username)]
          if env.execFails then ⟨db, sent ++ [.httpError "Error updating task" 500]⟩
          else
            let db' : DB := { db with tasks := db.tasks.map (fun t =>
              if matchesRow newTask.Id username t then
                { t with description := newTask.Desc } else t) }
            let rowsAffected := db.tasks.countP (matchesRow newTask.Id username)
            if env.rowsAffectedFails then
              ⟨db', sent ++ [.httpError "Error getting rows affected" 500]⟩
            else if rowsAffected = 0 then
              ⟨db', sent ++ [.httpError "Task not found" 404]⟩
            else ⟨db', sent ++ [.json (.updated newTask)]⟩

/-- Handler `Delete` (main.go, lines 255-303). -/
def Delete : Handler := fun env db r =>
  match r.body with
  | none => ⟨db, [.httpError "Invalid task ID" 400]⟩
  | some newTask =>
    if newTask.Id ≤ 0 then ⟨db, [.httpError "Invalid task ID" 400]⟩
    else
      match r.cookie with
      | none => ⟨db, [.nilDeref]⟩
      | some token =>
        match userQuery env db token with
        | .error _ => ⟨db, [.dbCall (.userByToken token), .httpError "unauthorized" 401]⟩
        | .ok username =>
          let sent : List Event :=
            [.dbCall (.userByToken token), .dbCall (.deleteTask newTask.Id username)]
          if env.execFails then ⟨db, sent ++ [.httpError "Error deleting task" 500]⟩
          else
            let db' : DB :=
              { db with tasks := db.tasks.filter (fun t => !(matchesRow newTask.Id username t)) }
            let rowsAffected := db.tasks.countP (matchesRow newTask.Id username)
            if env.rowsAffectedFails then
              ⟨db', sent ++ [.httpError "Error getting rows affected" 500]⟩
            else if rowsAffected = 0 then
              ⟨db', sent ++ [.httpError "Task not found" 404]⟩
            else ⟨db', sent ++ [.json .deleted]⟩

/-! ## Routing -/

/-- The task routes registered in `main` (main.go, lines 102-105). -/
inductive Route where
  | list
  | add
  | update
  | delete
deriving DecidableEq, Repr

/-- The handler registered for a route: each one behind `caller`. -/
def serveRoute : Route → Handler
  | .list => caller ListTasks
  | .add => caller Add
  | .update => caller Update
  | .delete => caller Delete

/-- The ids of the tasks a user owns, in table order. -/
def ownedIds (tasks : List TaskRow) (username : String) : List Int :=
  (tasks.filter (fun t => decide (t.username = username))).map (fun t => t.id)

/-- The rows of relation `tasks` a user owns. -/
def ownedRows (tasks : List TaskRow) (username : String) : List TaskRow :=
  tasks.filter (fun t => decide (t.username = username))

/-- The task-table invariant: ids are positive and no two rows of one user
carry the same id. -/
def TasksOk (tasks : List TaskRow) : Prop :=
  (∀ t ∈ tasks, 0 < t.id) ∧
    tasks.Pairwise (fun a b => a.username = b.username → a.id ≠ b.id)

/-- Databases reachable from an empty task table: the ledger may change in any
way between requests (login, logout and registration are served by package
`auth`), and any request may be served on any task route, under any clock and
any storage failures. -/
inductive Reachable : DB → Prop where
  | init (session : List SessionRow) : Reachable ⟨session, []⟩
  | ledger (db : DB) (session : List SessionRow) :
      Reachable db → Reachable { db with session := session }
  | request (db : DB) (route : Route) (env : Env) (r : Request) :
      Reachable db → Reachable (serveRoute route env db r).db

/-! ## Sample data -/

/-- A request environment in which no storage call fails, at instant `now`, over
a store with a key on `(id, username)` and a `BIGINT` column `id`. -/
def quietEnv (now : Int) : Env :=
  ⟨now, false, false, false, false, false, false, fun _ => false, true, maxInt⟩

/-- A ledger with one session, issued at instant 0. -/
def aliceLedger : List SessionRow := [⟨"tok-a", "alice", 0⟩]

/-- A request carrying the cookie of `aliceLedger` and no body. -/
def aliceGet : Request := ⟨some "tok-a", none⟩

/-- A request carrying the cookie of `aliceLedger` and a task to add. -/
def aliceAdd : Request := ⟨some "tok-a", some ⟨0, "milk"⟩⟩

/-- A task table in which `alice` owns ids 1, 2 and 3. -/
def aliceThree : List TaskRow :=
  [⟨1, "milk", "alice"⟩, ⟨2, "eggs", "alice"⟩, ⟨3, "tea", "alice"⟩]

/-- A task table in which `alice` owns id 1 and the largest `BIGINT`. -/
def aliceWide : List TaskRow := [⟨1, "milk", "alice"⟩, ⟨2 ^ 63 - 1, "eggs", "alice"⟩]

/-- A task table in which `alice` owns id 1 and `bob` owns id 2. -/
def sharedTable : List TaskRow := [⟨1, "milk", "alice"⟩, ⟨2, "tea", "bob"⟩]

/-- A request of `alice` naming task 2, with a description. -/
def aliceOnTwo : Request := ⟨some "tok-a", some ⟨2, "rice"⟩⟩

theorem five_minutes_le_Sub_iff (t u : Int) : 5 * Minute ≤ Sub t u ↔ 5 * Minute ≤ t - u := by
  unfold Sub Minute maxDuration minDuration
  norm_num
  split_ifs <;> omega

/-! ## The session gate -/

theorem caller_found (next : Handler) (env : Env) (db : DB) (r : Request)
    (token username : String) (issuedAt : Int)
    (hcookie : r.cookie = some token) (hne : token ≠ "")
    (hfound : sessionQuery env db token = .ok (username, issuedAt)) :
    caller next env db r =
      if 5 * Minute ≤ env.now - issuedAt then
        ⟨Logout db r,
          [.dbCall (.sessionByToken token), .logout, .httpError "Unauthorized" 401]⟩
      else (next env db r).after [.dbCall (.sessionByToken token), .serve] := by
  simp only [caller, hcookie, hne, hfound, if_false, ge_iff_le, five_minutes_le_Sub_iff,
    Run.after]
  rfl

theorem Logout_session (db : DB) (r : Request) (token : String)
    (hcookie : r.cookie = some token) :
    (Logout db r).session = db.session.filter (fun s => decide (s.session_id ≠ token)) ∧
      (Logout db r).tasks = db.tasks := by
  simp [Logout, hcookie]

theorem sessionQuery_absent (env : Env) (db : DB) (token : String)
    (hquiet : env.gateLookupFails = false)
    (habsent : ∀ s ∈ db.session, s.session_id ≠ token) :
    sessionQuery env db token = .error .ErrNoRows := by
  have hnone : db.session.find? (fun s => decide (s.session_id = token)) = none := by
    rw [List.find?_eq_none]
    intro s hs
    simpa using habsent s hs
  simp [sessionQuery, hquiet, hnone]

theorem Add_session (env : Env) (db : DB) (r : Request) :
    (Add env db r).db.session = db.session := by
  unfold Add AddInsert Run.after
  repeat' split
  all_goals rfl

theorem ListTasks_db (env : Env) (db : DB) (r : Request) :
    (ListTasks env db r).db = db := by
  unfold ListTasks
  repeat' split
  all_goals rfl

theorem Update_session (env : Env) (db : DB) (r : Request) :
    (Update env db r).db.session = db.session := by
  unfold Update
  repeat' split
  all_goals first | rfl | (dsimp only; split <;> rfl)

theorem Delete_session (env : Env) (db : DB) (r : Request) :
    (Delete env db r).db.session = db.session := by
  unfold Delete
  repeat' split
  all_goals first | rfl | (dsimp only; split <;> rfl)

/-- C2: for a non-empty session token that the lookup of `caller` finds with issue
time `issuedAt`, the request reaches the downstream handler if and only if
`now - issuedAt < 5 minutes`; inside the window the run is the handler's run after
the lookup, and at five minutes or more the trace is lookup, teardown, 401, with
no `serve` and none of the handler's events. -/
theorem caller_serves_iff_within_five_minutes (next : Handler) (env : Env) (db : DB)
    (r : Request) (token username : String) (issuedAt : Int)
    (hcookie : r.cookie = some token) (hne : token ≠ "")
    (hfound : sessionQuery env db token = .ok (username, issuedAt)) :
    (Event.serve ∈ (caller next env db r).trace ↔ env.now - issuedAt < 5 * Minute) ∧
      (env.now - issuedAt < 5 * Minute →
        caller next env db r =
          (next env db r).after [.dbCall (.sessionByToken token), .serve]) ∧
      (5 * Minute ≤ env.now - issuedAt →
        (caller next env db r).trace =
          [.dbCall (.sessionByToken token), .logout, .httpError "Unauthorized" 401]) := by
  rw [caller_found next env db r token username issuedAt hcookie hne hfound]
  by_cases hwin : 5 * Minute ≤ env.now - issuedAt
  · simp [hwin, not_lt.mpr hwin]
  · simp [hwin, not_le.mp hwin, Run.after]

theorem caller_serves_iff_within_five_minutes_witness :
    aliceGet.cookie = some "tok-a" ∧ "tok-a" ≠ "" ∧
      sessionQuery (quietEnv (4 * Minute + 59000000000)) ⟨aliceLedger, []⟩ "tok-a" =
        .ok ("alice", 0) ∧
      Event.serve ∈
        (caller ListTasks (quietEnv (4 * Minute + 59000000000)) ⟨aliceLedger, []⟩
          aliceGet).trace :=
  ⟨rfl, by decide, rfl,
    (caller_serves_iff_within_five_minutes ListTasks (quietEnv (4 * Minute + 59000000000))
      ⟨aliceLedger, []⟩ aliceGet "tok-a" "alice" 0 rfl (by decide) rfl).1.mpr
      (by decide)⟩

/-- C3: for a non-empty token that the lookup of `caller` finds with
`now - issuedAt >= 5 minutes`, the gate calls `auth.Logout` before it writes the
401 failure, the downstream handler is not run, and in the database the gate
leaves behind the ledger holds no entry for that token (a later lookup of the
token is `sql.ErrNoRows`), all other ledger entries and all tasks being kept. -/
theorem caller_expired_tears_down (next : Handler) (env : Env) (db : DB)
    (r : Request) (token username : String) (issuedAt : Int)
    (hcookie : r.cookie = some token) (hne : token ≠ "")
    (hfound : sessionQuery env db token = .ok (username, issuedAt))
    (hexpired : 5 * Minute ≤ env.now - issuedAt) :
    (caller next env db r).trace =
        [.dbCall (.sessionByToken token), .logout, .httpError "Unauthorized" 401] ∧
      (caller next env db r).db = Logout db r ∧
      (∀ s ∈ (caller next env db r).db.session, s.session_id ≠ token) ∧
      (∀ s ∈ db.session, s.session_id ≠ token → s ∈ (caller next env db r).db.session) ∧
      (caller next env db r).db.tasks = db.tasks ∧
      (∀ env' : Env, env'.gateLookupFails = false →
        sessionQuery env' (caller next env db r).db token = .error .ErrNoRows) := by
  rw [caller_found next env db r token username issuedAt hcookie hne hfound]
  have hkept : ∀ s ∈ (Logout db r).session, s.session_id ≠ token := by
    intro s hs
    rw [(Logout_session db r token hcookie).1] at hs
    simpa using (List.mem_filter.mp hs).2
  refine ⟨by simp [hexpired], by simp [hexpired], ?_, ?_, ?_, ?_⟩
  · simpa [hexpired] using hkept
  · intro s hs hst
    simp only [hexpired, if_true, (Logout_session db r token hcookie).1]
    exact List.mem_filter.mpr ⟨hs, by simpa using hst⟩
  · simp [hexpired, (Logout_session db r token hcookie).2]
  · intro env' hquiet
    simp only [hexpired, if_true]
    exact sessionQuery_absent env' _ token hquiet hkept

theorem caller_expired_tears_down_witness :
    aliceGet.cookie = some "tok-a" ∧ "tok-a" ≠ "" ∧
      sessionQuery (quietEnv (5 * Minute)) ⟨aliceLedger, []⟩ "tok-a" = .ok ("alice", 0) ∧
      5 * Minute ≤ (quietEnv (5 * Minute)).now - 0 ∧
      (caller ListTasks (quietEnv (5 * Minute)) ⟨aliceLedger, []⟩ aliceGet).trace =
        [.dbCall (.sessionByToken "tok-a"), .logout, .httpError "Unauthorized" 401] :=
  ⟨rfl, by decide, rfl, by decide,
    (caller_expired_tears_down ListTasks (quietEnv (5 * Minute)) ⟨aliceLedger, []⟩ aliceGet
      "tok-a" "alice" 0 rfl (by decide) rfl (by decide)).1⟩

/-- C4: `caller` tells the lookup-side failures apart and runs the downstream
handler in none of them.  A missing or empty cookie is answered 401 with no
statement sent and the database untouched; a non-empty token with no ledger
entry is answered 404; any other lookup error is answered 500, a status that is
neither 401 nor 404. -/
theorem caller_lookup_failures (next : Handler) (env : Env) (db : DB) (r : Request) :
    (r.cookie = none ∨ r.cookie = some "" →
        caller next env db r = ⟨db, [.httpError "Unauthorized" 401]⟩) ∧
      (∀ token, r.cookie = some token → token ≠ "" → env.gateLookupFails = false →
        (∀ s ∈ db.session, s.session_id ≠ token) →
        caller next env db r =
          ⟨db, [.dbCall (.sessionByToken token), .httpError "User not found" 404]⟩) ∧
      (∀ token e, r.cookie = some token → token ≠ "" →
        sessionQuery env db token = .error e → e ≠ .ErrNoRows →
        caller next env db r =
            ⟨db, [.dbCall (.sessionByToken token),
                  .httpError "Error fetching tasks" 500]⟩ ∧
          (500 : Nat) ≠ 401 ∧ (500 : Nat) ≠ 404) ∧
      (∀ token, r.cookie = some token → token ≠ "" → env.gateLookupFails = true →
        caller next env db r =
          ⟨db, [.dbCall (.sessionByToken token),
                .httpError "Error fetching tasks" 500]⟩) := by
  refine ⟨?_, ?_, ?_, ?_⟩
  · rintro (h | h) <;> simp [caller, h]
  · intro token hcookie hne hquiet habsent
    simp [caller, hcookie, hne, sessionQuery_absent env db token hquiet habsent]
  · intro token e hcookie hne herr hkind
    refine ⟨?_, by decide, by decide⟩
    cases e with
    | ErrNoRows => exact absurd rfl hkind
    | duplicateKey => simp [caller, hcookie, hne, herr]
    | driver => simp [caller, hcookie, hne, herr]
  · intro token hcookie hne hfails
    simp [caller, hcookie, hne, sessionQuery, hfails]

theorem caller_lookup_failures_witness :
    (caller Add (quietEnv 0) ⟨aliceLedger, []⟩ ⟨none, none⟩ =
        ⟨⟨aliceLedger, []⟩, [.httpError "Unauthorized" 401]⟩) ∧
      (caller Add (quietEnv 0) ⟨aliceLedger, []⟩ ⟨some "tok-b", none⟩ =
        ⟨⟨aliceLedger, []⟩,
          [.dbCall (.sessionByToken "tok-b"), .httpError "User not found" 404]⟩) ∧
      (caller Add { quietEnv 0 with gateLookupFails := true } ⟨aliceLedger, []⟩ aliceGet =
        ⟨⟨aliceLedger, []⟩,
          [.dbCall (.sessionByToken "tok-a"), .httpError "Error fetching tasks" 500]⟩) :=
  ⟨(caller_lookup_failures Add (quietEnv 0) ⟨aliceLedger, []⟩ ⟨none, none⟩).1 (Or.inl rfl),
    (caller_lookup_failures Add (quietEnv 0) ⟨aliceLedger, []⟩ ⟨some "tok-b", none⟩).2.1
      "tok-b" rfl (by decide) rfl (by decide),
    ((caller_lookup_failures Add { quietEnv 0 with gateLookupFails := true }
      ⟨aliceLedger, []⟩ aliceGet).2.2.1 "tok-a" .driver rfl (by decide) rfl (by decide)).1⟩

theorem serveRoute_session_of_authorized (route : Route) (env : Env) (db : DB)
    (r : Request) (token username : String) (issuedAt : Int)
    (hcookie : r.cookie = some token) (hne : token ≠ "")
    (hfound : sessionQuery env db token = .ok (username, issuedAt))
    (hwin : env.now - issuedAt < 5 * Minute) :
    (serveRoute route env db r).db.session = db.session := by
  cases route <;>
    simp only [serveRoute,
      caller_found _ env db r token username issuedAt hcookie hne hfound,
      not_le.mpr hwin, if_false, Run.after]
  · rw [ListTasks_db]
  · exact Add_session env db r
  · exact Update_session env db r
  · exact Delete_session env db r

theorem sessionQuery_congr (env env' : Env) (db db' : DB) (token : String)
    (hfails : env'.gateLookupFails = env.gateLookupFails)
    (hsession : db'.session = db.session) :
    sessionQuery env' db' token = sessionQuery env db token := by
  simp [sessionQuery, hfails, hsession]

/-- C5: when `caller` authorizes a token, the gate writes nothing: the downstream
handler is run on exactly the database the gate received, and with a handler
that does nothing the database after the gate equals the one before.  After the
whole request on any task route the ledger is still the one before, so a second
check of the same token at any time inside the window finds the same identity
and issue time and is authorized again. -/
theorem caller_authorized_leaves_ledger (next : Handler) (env : Env) (db : DB)
    (r : Request) (token username : String) (issuedAt : Int)
    (hcookie : r.cookie = some token) (hne : token ≠ "")
    (hfound : sessionQuery env db token = .ok (username, issuedAt))
    (hwin : env.now - issuedAt < 5 * Minute) :
    caller next env db r =
        (next env db r).after [.dbCall (.sessionByToken token), .serve] ∧
      (caller (fun _ d _ => ⟨d, []⟩) env db r).db = db ∧
      (∀ route : Route, (serveRoute route env db r).db.session = db.session) ∧
      (∀ (route : Route) (env' : Env) (r' : Request) (next' : Handler),
        r'.cookie = some token → env'.gateLookupFails = env.gateLookupFails →
        env'.now - issuedAt < 5 * Minute →
        sessionQuery env' (serveRoute route env db r).db token = .ok (username, issuedAt) ∧
          caller next' env' (serveRoute route env db r).db r' =
            (next' env' (serveRoute route env db r).db r').after
              [.dbCall (.sessionByToken token), .serve]) := by
  have hsess := fun route =>
    serveRoute_session_of_authorized route env db r token username issuedAt hcookie hne
      hfound hwin
  refine ⟨?_, ?_, hsess, ?_⟩
  · simp [caller_found next env db r token username issuedAt hcookie hne hfound,
      not_le.mpr hwin]
  · simp [caller_found _ env db r token username issuedAt hcookie hne hfound,
      not_le.mpr hwin, Run.after]
  · intro route env' r' next' hcookie' hfails hwin'
    have hfound' : sessionQuery env' (serveRoute route env db r).db token =
        .ok (username, issuedAt) := by
      rw [sessionQuery_congr env env' db _ token hfails (hsess route), hfound]
    refine ⟨hfound', ?_⟩
    simp [caller_found next' env' _ r' token username issuedAt hcookie' hne hfound',
      not_le.mpr hwin']

theorem caller_authorized_leaves_ledger_witness :
    aliceGet.cookie = some "tok-a" ∧ "tok-a" ≠ "" ∧
      sessionQuery (quietEnv Minute) ⟨aliceLedger, []⟩ "tok-a" = .ok ("alice", 0) ∧
      (quietEnv Minute).now - 0 < 5 * Minute ∧
      (caller (fun _ d _ => ⟨d, []⟩) (quietEnv Minute) ⟨aliceLedger, []⟩ aliceGet).db =
        ⟨aliceLedger, []⟩ :=
  ⟨rfl, by decide, rfl, by decide,
    (caller_authorized_leaves_ledger ListTasks (quietEnv Minute) ⟨aliceLedger, []⟩ aliceGet
      "tok-a" "alice" 0 rfl (by decide) rfl (by decide)).2.1⟩

/-! ## Id selection -/

theorem min?_getD_spec (l : List Int) (d : Int) (hne : l ≠ []) :
    l.min?.getD d ∈ l ∧ ∀ b ∈ l, l.min?.getD d ≤ b := by
  cases h : l.min? with
  | none => exact absurd (List.min?_eq_none_iff.mp h) hne
  | some m =>
    refine ⟨List.min?_mem (fun a b => min_choice a b) h, ?_⟩
    exact (List.le_min?_iff (fun a b c => le_min_iff) h).mp (le_refl m)

theorem exists_max_of_ne_nil (l : List Int) (hne : l ≠ []) :
    ∃ m ∈ l, ∀ x ∈ l, x ≤ m := by
  have hs : l.toFinset.Nonempty := by
    obtain ⟨a, ha⟩ := List.exists_mem_of_ne_nil l hne
    exact ⟨a, List.mem_toFinset.mpr ha⟩
  obtain ⟨m, hm, hmax⟩ := Finset.exists_max_image l.toFinset id hs
  exact ⟨m, List.mem_toFinset.mp hm, fun x hx => hmax x (List.mem_toFinset.mpr hx)⟩

theorem mem_ownedIds (tasks : List TaskRow) (u : String) (i : Int) :
    i ∈ ownedIds tasks u ↔ ∃ t ∈ tasks, t.username = u ∧ t.id = i := by
  simp [ownedIds, and_assoc]

theorem mem_successorGaps (idMax : Int) (tasks : List TaskRow) (u : String)
    (gaps : List Int) (hgaps : successorGaps idMax tasks u = .ok gaps) (k : Int) :
    k ∈ gaps ↔ k - 1 ∈ ownedIds tasks u ∧ k ∉ ownedIds tasks u := by
  unfold successorGaps at hgaps
  split_ifs at hgaps
  injection hgaps with hgaps
  subst hgaps
  simp only [mem_ownedIds, List.mem_map, List.mem_filter, Bool.and_eq_true,
    decide_eq_true_eq, Bool.not_eq_true', List.any_eq_false, not_and, not_exists]
  constructor
  · rintro ⟨t, ⟨ht, hu, hno⟩, rfl⟩
    refine ⟨⟨t, ht, hu, by omega⟩, ?_⟩
    intro t2 ht2 hu2 hid
    exact hno t2 ht2 hid.symm (hu.trans hu2.symm)
  · rintro ⟨⟨t, ht, hu, hid⟩, hno⟩
    refine ⟨t, ⟨ht, hu, ?_⟩, by omega⟩
    intro t2 ht2 hid2 hu2
    exact hno t2 ht2 (hu2.symm.trans hu) (by omega)

theorem successorGaps_ne_nil (idMax : Int) (tasks : List TaskRow) (u : String)
    (gaps : List Int) (hgaps : successorGaps idMax tasks u = .ok gaps) (i : Int)
    (hi : i ∈ ownedIds tasks u) : gaps ≠ [] := by
  obtain ⟨m, hm, hmax⟩ := exists_max_of_ne_nil (ownedIds tasks u) (List.ne_nil_of_mem hi)
  have hmem : m + 1 ∈ gaps := by
    rw [mem_successorGaps idMax tasks u gaps hgaps]
    refine ⟨by simpa using hm, fun h => ?_⟩
    have := hmax _ h
    omega
  exact List.ne_nil_of_mem hmem

theorem idSelection_cases (idMax : Int) (tasks : List TaskRow) (u : String) (k : Int)
    (hk : idSelection idMax tasks u = .ok k) :
    (1 ∉ ownedIds tasks u ∧ k = 1) ∨
      (1 ∈ ownedIds tasks u ∧
        ∃ gaps, successorGaps idMax tasks u = .ok gaps ∧ k = gaps.min?.getD 1) := by
  unfold idSelection at hk
  split at hk
  · rename_i hnil
    left
    refine ⟨?_, by injection hk with h; exact h.symm⟩
    rw [mem_ownedIds]
    rintro ⟨t, ht, hu, hid⟩
    have := List.filter_eq_nil_iff.mp hnil t ht
    simp [hu, hid] at this
  · rename_i t hone
    right
    have hmem : t ∈ tasks.filter (fun t => decide (t.id = 1 ∧ t.username = u)) := by
      rw [hone]; exact List.mem_singleton.mpr rfl
    have hfil := List.mem_filter.mp hmem
    have h1 : (1 : Int) ∈ ownedIds tasks u :=
      (mem_ownedIds tasks u 1).mpr
        ⟨t, hfil.1, (of_decide_eq_true hfil.2).2, (of_decide_eq_true hfil.2).1⟩
    split at hk
    · cases hk
    · rename_i gaps hgaps
      injection hk with h
      exact ⟨h1, gaps, hgaps, h.symm⟩
  · cases hk

theorem idSelection_fresh (idMax : Int) (tasks : List TaskRow) (u : String) (k : Int)
    (hk : idSelection idMax tasks u = .ok k) (hpos : ∀ i ∈ ownedIds tasks u, 0 < i) :
    0 < k ∧ k ∉ ownedIds tasks u := by
  rcases idSelection_cases idMax tasks u k hk with ⟨hone, rfl⟩ | ⟨hone, gaps, hgaps, rfl⟩
  · exact ⟨by decide, hone⟩
  · have hmem := (min?_getD_spec gaps 1
      (successorGaps_ne_nil idMax tasks u gaps hgaps 1 hone)).1
    rw [mem_successorGaps idMax tasks u gaps hgaps] at hmem
    have := hpos _ hmem.1
    exact ⟨by omega, hmem.2⟩

theorem idSelection_below (idMax : Int) (tasks : List TaskRow) (u : String) (k : Int)
    (hk : idSelection idMax tasks u = .ok k) (j : Int) (hj : 0 < j) (hjk : j < k) :
    j ∈ ownedIds tasks u := by
  rcases idSelection_cases idMax tasks u k hk with ⟨_, rfl⟩ | ⟨hone, gaps, hgaps, rfl⟩
  · omega
  · have hmin := (min?_getD_spec gaps 1
      (successorGaps_ne_nil idMax tasks u gaps hgaps 1 hone)).2
    refine @Int.le_induction
      (fun n => n < gaps.min?.getD 1 → n ∈ ownedIds tasks u) 1
      (fun _ => hone) ?_ j (by omega) hjk
    intro n _ ih hlt
    by_contra hnot
    have hgap : n + 1 ∈ gaps := by
      rw [mem_successorGaps idMax tasks u gaps hgaps]
      exact ⟨by simpa using ih (by omega), hnot⟩
    have := hmin _ hgap
    omega

theorem successorOverflows_eq_false (idMax : Int) (tasks : List TaskRow) (u : String)
    (hfit : ∀ j ∈ ownedIds tasks u, j < idMax) :
    successorOverflows idMax tasks u = false := by
  unfold successorOverflows
  rw [List.any_eq_false]
  intro t ht hdec
  have h := of_decide_eq_true hdec
  have := hfit t.id ((mem_ownedIds tasks u t.id).mpr ⟨t, ht, h.1, rfl⟩)
  omega

theorem successorOverflows_eq_true (idMax : Int) (tasks : List TaskRow) (u : String)
    (j : Int) (hj : j ∈ ownedIds tasks u) (hbig : idMax ≤ j) :
    successorOverflows idMax tasks u = true := by
  obtain ⟨t, ht, hu, hid⟩ := (mem_ownedIds tasks u j).mp hj
  unfold successorOverflows
  rw [List.any_eq_true]
  exact ⟨t, ht, decide_eq_true ⟨hu, by omega⟩⟩

theorem successorGaps_of_fit (idMax : Int) (tasks : List TaskRow) (u : String)
    (hfit : ∀ j ∈ ownedIds tasks u, j < idMax) :
    ∃ gaps, successorGaps idMax tasks u = .ok gaps := by
  unfold successorGaps
  rw [successorOverflows_eq_false idMax tasks u hfit]
  exact ⟨_, rfl⟩

theorem idSelection_total (idMax : Int) (tasks : List TaskRow) (u : String)
    (hnodup : (ownedIds tasks u).Nodup)
    (hfit : 1 ∈ ownedIds tasks u → ∀ j ∈ ownedIds tasks u, j < idMax) :
    ∃ k, idSelection idMax tasks u = .ok k := by
  unfold idSelection
  split
  · exact ⟨_, rfl⟩
  · rename_i t hone
    have hmem : t ∈ tasks.filter (fun t => decide (t.id = 1 ∧ t.username = u)) := by
      rw [hone]; exact List.mem_singleton.mpr rfl
    have hdec := of_decide_eq_true (List.mem_filter.mp hmem).2
    have h1 : (1 : Int) ∈ ownedIds tasks u :=
      (mem_ownedIds tasks u 1).mpr ⟨t, (List.mem_filter.mp hmem).1, hdec.2, hdec.1⟩
    obtain ⟨gaps, hgaps⟩ := successorGaps_of_fit idMax tasks u (hfit h1)
    rw [hgaps]
    exact ⟨_, rfl⟩
  · rename_i a b rest hfilter
    exfalso
    have hsplit : tasks.filter (fun t => decide (t.id = 1 ∧ t.username = u)) =
        (tasks.filter (fun t => decide (t.username = u))).filter
          (fun t => decide (t.id = 1)) := by
      rw [List.filter_filter]
      congr 1
      funext t
      simp [Bool.and_comm]
    have hsub : ((tasks.filter (fun t => decide (t.id = 1 ∧ t.username = u))).map
        (fun t => t.id)).Nodup := by
      rw [hsplit]
      exact hnodup.sublist ((List.filter_sublist _).map _)
    have ha : a ∈ tasks.filter (fun t => decide (t.id = 1 ∧ t.username = u)) := by
      rw [hfilter]; simp
    have hb : b ∈ tasks.filter (fun t => decide (t.id = 1 ∧ t.username = u)) := by
      rw [hfilter]; simp
    have ha1 : a.id = 1 := (of_decide_eq_true (List.mem_filter.mp ha).2).1
    have hb1 : b.id = 1 := (of_decide_eq_true (List.mem_filter.mp hb).2).1
    rw [hfilter] at hsub
    simp [ha1, hb1] at hsub

theorem idSelection_overflow (idMax : Int) (tasks : List TaskRow) (u : String) (j : Int)
    (hone : 1 ∈ ownedIds tasks u) (hj : j ∈ ownedIds tasks u) (hbig : idMax ≤ j) :
    ∀ k, idSelection idMax tasks u ≠ .ok k := by
  intro k hk
  rcases idSelection_cases idMax tasks u k hk with ⟨hnot, _⟩ | ⟨_, gaps, hgaps, _⟩
  · exact hnot hone
  · unfold successorGaps at hgaps
    rw [successorOverflows_eq_true idMax tasks u j hj hbig] at hgaps
    cases hgaps

theorem idQuery_ok (env : Env) (tasks : List TaskRow) (u : String) (k : Int)
    (hk : idQuery env tasks u = .ok k) : idSelection env.idMax tasks u = .ok k := by
  unfold idQuery at hk
  split_ifs at hk
  split at hk
  · cases hk
  · split_ifs at hk
    injection hk with h
    subst h
    assumption

theorem idQuery_of_idSelection (env : Env) (tasks : List TaskRow) (u : String) (k : Int)
    (hidq : env.idQueryFails = false) (hk : idSelection env.idMax tasks u = .ok k)
    (hlo : minInt ≤ k) (hhi : k ≤ maxInt) : idQuery env tasks u = .ok k := by
  simp [idQuery, hidq, hk, hlo, hhi]

/-- C1 as stated fails: over a `BIGINT` column, and likewise over an `INTEGER`
column, take a user who owns id 1 and the largest value of the type.  The owned
ids are positive and distinct and the smallest missing positive integer is 2,
but the id-selection statement computes `t1.id + 1` out of range and fails, so
it returns no id, and `Add` answers 500 "Error generating ID". -/
theorem idSelection_fails_at_largest_id :
    (∀ i ∈ ownedIds aliceWide "alice", 0 < i) ∧ (ownedIds aliceWide "alice").Nodup ∧
      (0 < (2 : Int) ∧ (2 : Int) ∉ ownedIds aliceWide "alice") ∧
      idSelection (2 ^ 63 - 1) aliceWide "alice" = .error .driver ∧
      idSelection (2 ^ 31 - 1)
          [⟨1, "milk", "alice"⟩, ⟨2 ^ 31 - 1, "eggs", "alice"⟩] "alice" = .error .driver ∧
      ¬ (∃ k, idSelection (2 ^ 63 - 1) aliceWide "alice" = .ok k ∧
          IsLeast {j : Int | 0 < j ∧ j ∉ ownedIds aliceWide "alice"} k) ∧
      Add (quietEnv 0) ⟨aliceLedger, aliceWide⟩ aliceAdd =
        ⟨⟨aliceLedger, aliceWide⟩,
          [.dbCall (.userByToken "tok-a"), .dbCall (.idSelection "alice"),
            .httpError "Error generating ID" 500]⟩ := by
  have herr : idSelection (2 ^ 63 - 1) aliceWide "alice" = .error .driver := rfl
  refine ⟨by decide, by decide, by decide, herr, rfl, ?_, rfl⟩
  rintro ⟨k, hk, _⟩
  rw [herr] at hk
  cases hk

/-- C1, amended: for a user whose owned ids are positive and pairwise distinct,
and who either does not own id 1 or owns only ids below the largest value
`idMax` of the store's integer type, the id-selection statement of `Add`
returns a value, and that value is the least positive integer not among the
owned ids.  In particular it is 1 when the user owns nothing, `n + 1` when the
owned ids are exactly `1..n`, and when some positive `g` is missing below an
owned id `m` it is at most `g`, hence below `m + 1`.  When the statement does
not fail for another reason and the value fits Go `int`, it is the id that
`Scan` stores in `newTask.Id`. -/
theorem idSelection_smallest_missing (idMax : Int) (tasks : List TaskRow) (u : String)
    (hpos : ∀ i ∈ ownedIds tasks u, 0 < i) (hnodup : (ownedIds tasks u).Nodup)
    (hfit : 1 ∈ ownedIds tasks u → ∀ j ∈ ownedIds tasks u, j < idMax) :
    ∃ k, idSelection idMax tasks u = .ok k ∧
      IsLeast {j : Int | 0 < j ∧ j ∉ ownedIds tasks u} k ∧
      (ownedIds tasks u = [] → k = 1) ∧
      (∀ n : Nat, (∀ j : Int, j ∈ ownedIds tasks u ↔ 1 ≤ j ∧ j ≤ n) → k = n + 1) ∧
      (∀ g m : Int, 0 < g → g ∉ ownedIds tasks u → m ∈ ownedIds tasks u → g < m →
        k ≤ g ∧ k < m + 1) ∧
      (∀ env : Env, env.idMax = idMax → env.idQueryFails = false → k ≤ maxInt →
        idQuery env tasks u = .ok k) := by
  obtain ⟨k, hk⟩ := idSelection_total idMax tasks u hnodup hfit
  have hfresh := idSelection_fresh idMax tasks u k hk hpos
  have hbelow := idSelection_below idMax tasks u k hk
  have hleast : ∀ j : Int, 0 < j → j ∉ ownedIds tasks u → k ≤ j := by
    intro j hj hnot
    by_contra hlt
    exact hnot (hbelow j hj (by omega))
  refine ⟨k, hk, ⟨hfresh, fun j hj => hleast j hj.1 hj.2⟩, ?_, ?_, ?_, ?_⟩
  · intro hnil
    have := hleast 1 (by decide) (by simp [hnil])
    omega
  · intro n hn
    have h1 : k ≤ n + 1 := hleast _ (by omega) (by rw [hn]; omega)
    have h2 : ¬ (1 ≤ k ∧ k ≤ n) := fun h => hfresh.2 ((hn k).mpr h)
    omega
  · intro g m hg hgnot _ hgm
    have := hleast g hg hgnot
    omega
  · intro env hmax hidq hhi
    subst hmax
    have hlo : minInt ≤ k := by
      have := hfresh.1
      unfold minInt
      omega
    exact idQuery_of_idSelection env tasks u k hidq hk hlo hhi

theorem idSelection_smallest_missing_witness :
    (∀ i ∈ ownedIds [⟨1, "milk", "alice"⟩, ⟨3, "eggs", "alice"⟩, ⟨2, "tea", "bob"⟩] "alice",
        0 < i) ∧
      (ownedIds [⟨1, "milk", "alice"⟩, ⟨3, "eggs", "alice"⟩, ⟨2, "tea", "bob"⟩]
        "alice").Nodup ∧
      (∀ j ∈ ownedIds [⟨1, "milk", "alice"⟩, ⟨3, "eggs", "alice"⟩, ⟨2, "tea", "bob"⟩]
        "alice", j < 2 ^ 31 - 1) ∧
      idSelection (2 ^ 31 - 1)
        [⟨1, "milk", "alice"⟩, ⟨3, "eggs", "alice"⟩, ⟨2, "tea", "bob"⟩] "alice" = .ok 2 ∧
      ∃ k, idSelection (2 ^ 31 - 1)
          [⟨1, "milk", "alice"⟩, ⟨3, "eggs", "alice"⟩, ⟨2, "tea", "bob"⟩] "alice" = .ok k ∧
        IsLeast {j : Int | 0 < j ∧
          j ∉ ownedIds [⟨1, "milk", "alice"⟩, ⟨3, "eggs", "alice"⟩, ⟨2, "tea", "bob"⟩]
            "alice"} k := by
  have hpos : ∀ i ∈ ownedIds
      [⟨1, "milk", "alice"⟩, ⟨3, "eggs", "alice"⟩, ⟨2, "tea", "bob"⟩] "alice", 0 < i := by
    decide
  have hnodup : (ownedIds
      [⟨1, "milk", "alice"⟩, ⟨3, "eggs", "alice"⟩, ⟨2, "tea", "bob"⟩] "alice").Nodup := by
    decide
  have hfit : ∀ j ∈ ownedIds
      [⟨1, "milk", "alice"⟩, ⟨3, "eggs", "alice"⟩, ⟨2, "tea", "bob"⟩] "alice",
      j < 2 ^ 31 - 1 := by
    decide
  obtain ⟨k, hk, hleast, _⟩ :=
    idSelection_smallest_missing (2 ^ 31 - 1) _ "alice" hpos hnodup (fun _ => hfit)
  exact ⟨hpos, hnodup, hfit, rfl, k, hk, hleast⟩

/-! ## The task table -/

theorem insertTask_cases (env : Env) (tasks tasks' : List TaskRow) (row : TaskRow)
    (h : insertTask env tasks row = .ok tasks') : tasks' = tasks ++ [row] := by
  unfold insertTask at h
  split_ifs at h
  injection h with h
  exact h.symm

theorem Add_tasks (env : Env) (db : DB) (r : Request) :
    (Add env db r).db.tasks = db.tasks ∨
      ∃ u k desc, idSelection env.idMax db.tasks u = .ok k ∧
        (Add env db r).db.tasks = db.tasks ++ [⟨k, desc, u⟩] := by
  unfold Add
  split
  · exact Or.inl rfl
  · split
    · exact Or.inl rfl
    · split
      · exact Or.inl rfl
      · split
        · exact Or.inl rfl
        · rename_i u _
          split
          · exact Or.inl rfl
          · rename_i k hsel
            have hk := idQuery_ok env db.tasks u k hsel
            simp only [AddInsert, Run.after]
            split
            · exact Or.inl rfl
            · rename_i tasks' hins
              exact Or.inr ⟨u, k, _, hk, insertTask_cases _ _ _ _ hins⟩

theorem Update_tasks (env : Env) (db : DB) (r : Request) :
    (Update env db r).db.tasks = db.tasks ∨
      ∃ id desc u, (Update env db r).db.tasks =
        db.tasks.map (fun t =>
          if matchesRow id u t then { t with description := desc } else t) := by
  unfold Update
  repeat' split
  all_goals first
    | exact Or.inl rfl
    | (dsimp only; split <;> exact Or.inr ⟨_, _, _, rfl⟩)
    | exact Or.inr ⟨_, _, _, rfl⟩

theorem Delete_tasks (env : Env) (db : DB) (r : Request) :
    (Delete env db r).db.tasks = db.tasks ∨
      ∃ id u, (Delete env db r).db.tasks =
        db.tasks.filter (fun t => !(matchesRow id u t)) := by
  unfold Delete
  repeat' split
  all_goals first
    | exact Or.inl rfl
    | (dsimp only; split <;> exact Or.inr ⟨_, _, rfl⟩)
    | exact Or.inr ⟨_, _, rfl⟩

theorem caller_tasks (next : Handler) (env : Env) (db : DB) (r : Request) :
    (caller next env db r).db.tasks = db.tasks ∨
      (caller next env db r).db.tasks = (next env db r).db.tasks := by
  unfold caller
  split
  · exact Or.inl rfl
  · rename_i token hcookie
    split
    · exact Or.inl rfl
    · split
      · exact Or.inl rfl
      · exact Or.inl rfl
      · dsimp only
        split
        · exact Or.inl (Logout_session db r token hcookie).2
        · exact Or.inr rfl

theorem TasksOk.owned_pos (tasks : List TaskRow) (h : TasksOk tasks) (u : String) :
    ∀ i ∈ ownedIds tasks u, 0 < i := by
  intro i hi
  obtain ⟨t, ht, _, rfl⟩ := (mem_ownedIds tasks u i).mp hi
  exact h.1 t ht

theorem TasksOk.append (tasks : List TaskRow) (h : TasksOk tasks) (k : Int)
    (desc u : String) (hk : 0 < k) (hfresh : k ∉ ownedIds tasks u) :
    TasksOk (tasks ++ [⟨k, desc, u⟩]) := by
  constructor
  · intro t ht
    rcases List.mem_append.mp ht with ht | ht
    · exact h.1 t ht
    · rw [List.mem_singleton.mp ht]; exact hk
  · rw [List.pairwise_append]
    refine ⟨h.2, List.pairwise_singleton _ _, ?_⟩
    intro a ha b hb hu hid
    rw [List.mem_singleton.mp hb] at hu hid
    exact hfresh ((mem_ownedIds tasks u k).mpr ⟨a, ha, hu, hid⟩)

theorem TasksOk.update (tasks : List TaskRow) (h : TasksOk tasks) (id : Int)
    (desc u : String) :
    TasksOk (tasks.map (fun t =>
      if matchesRow id u t then { t with description := desc } else t)) := by
  constructor
  · intro t ht
    obtain ⟨t0, ht0, rfl⟩ := List.mem_map.mp ht
    have := h.1 t0 ht0
    split_ifs <;> exact this
  · rw [List.pairwise_map]
    refine h.2.imp ?_
    intro a b hab
    split_ifs <;> exact hab

theorem TasksOk.delete (tasks : List TaskRow) (h : TasksOk tasks) (id : Int) (u : String) :
    TasksOk (tasks.filter (fun t => !(matchesRow id u t))) :=
  ⟨fun t ht => h.1 t (List.mem_filter.mp ht).1, h.2.sublist (List.filter_sublist _)⟩

theorem TasksOk.owned_nodup (tasks : List TaskRow) (h : TasksOk tasks) (u : String) :
    (ownedIds tasks u).Nodup := by
  unfold ownedIds
  rw [List.Nodup, List.pairwise_map]
  have hsub := h.2.sublist
    (List.filter_sublist tasks : List.Sublist (tasks.filter (fun t => decide (t.username = u))) tasks)
  refine hsub.imp_of_mem ?_
  intro a b ha hb hab
  have hau : a.username = u := of_decide_eq_true (List.mem_filter.mp ha).2
  have hbu : b.username = u := of_decide_eq_true (List.mem_filter.mp hb).2
  exact hab (hau.trans hbu.symm)

theorem Add_TasksOk (env : Env) (db : DB) (r : Request) (h : TasksOk db.tasks) :
    TasksOk (Add env db r).db.tasks := by
  rcases Add_tasks env db r with heq | ⟨u, k, desc, hk, heq⟩
  · rw [heq]; exact h
  · rw [heq]
    have hfresh := idSelection_fresh env.idMax db.tasks u k hk (h.owned_pos db.tasks u)
    exact h.append db.tasks k desc u hfresh.1 hfresh.2

theorem Update_TasksOk (env : Env) (db : DB) (r : Request) (h : TasksOk db.tasks) :
    TasksOk (Update env db r).db.tasks := by
  rcases Update_tasks env db r with heq | ⟨id, desc, u, heq⟩
  · rw [heq]; exact h
  · rw [heq]; exact h.update db.tasks id desc u

theorem Delete_TasksOk (env : Env) (db : DB) (r : Request) (h : TasksOk db.tasks) :
    TasksOk (Delete env db r).db.tasks := by
  rcases Delete_tasks env db r with heq | ⟨id, u, heq⟩
  · rw [heq]; exact h
  · rw [heq]; exact h.delete db.tasks id u

theorem serveRoute_TasksOk (route : Route) (env : Env) (db : DB) (r : Request)
    (h : TasksOk db.tasks) : TasksOk (serveRoute route env db r).db.tasks := by
  cases route <;> simp only [serveRoute]
  · rcases caller_tasks ListTasks env db r with heq | heq
    · rw [heq]; exact h
    · rw [heq, ListTasks_db]; exact h
  · rcases caller_tasks Add env db r with heq | heq
    · rw [heq]; exact h
    · rw [heq]; exact Add_TasksOk env db r h
  · rcases caller_tasks Update env db r with heq | heq
    · rw [heq]; exact h
    · rw [heq]; exact Update_TasksOk env db r h
  · rcases caller_tasks Delete env db r with heq | heq
    · rw [heq]; exact h
    · rw [heq]; exact Delete_TasksOk env db r h

theorem Reachable.tasksOk (db : DB) (h : Reachable db) : TasksOk db.tasks := by
  induction h with
  | init session => exact ⟨fun t ht => absurd ht (List.not_mem_nil t), List.Pairwise.nil⟩
  | ledger db session _ ih => exact ih
  | request db route env r _ ih => exact serveRoute_TasksOk route env db r ih

/-- C6: in every database reachable from an empty task table by requests on the
task routes (any users, any clock, any storage failures, with or without a key
on `(id, username)` in the store) and by any changes of the ledger in between,
every stored id is positive and no two rows of one user carry the same id.  In
such a state the id that the id-selection statement computes for a user is
positive and is not among the ids that user owns, whatever the integer type of
column `id`. -/
theorem reachable_ids_positive_and_distinct (db : DB) (h : Reachable db) :
    (∀ t ∈ db.tasks, 0 < t.id) ∧
      db.tasks.Pairwise (fun a b => a.username = b.username → a.id ≠ b.id) ∧
      (∀ u : String, (ownedIds db.tasks u).Nodup) ∧
      (∀ (idMax : Int) (u : String) (k : Int), idSelection idMax db.tasks u = .ok k →
        0 < k ∧ k ∉ ownedIds db.tasks u) := by
  have hok := h.tasksOk
  exact ⟨hok.1, hok.2, hok.owned_nodup db.tasks,
    fun idMax u k hk =>
      idSelection_fresh idMax db.tasks u k hk (hok.owned_pos db.tasks u)⟩

theorem reachable_ids_positive_and_distinct_witness :
    (serveRoute .add { quietEnv Minute with taskKey := false } ⟨aliceLedger, []⟩
        aliceAdd).db.tasks = [⟨1, "milk", "alice"⟩] ∧
      ∀ t ∈ (serveRoute .add { quietEnv Minute with taskKey := false } ⟨aliceLedger, []⟩
        aliceAdd).db.tasks, 0 < t.id :=
  ⟨rfl,
    (reachable_ids_positive_and_distinct _
      (Reachable.request ⟨aliceLedger, []⟩ .add { quietEnv Minute with taskKey := false }
        aliceAdd (Reachable.init aliceLedger))).1⟩

/-- C7 as stated fails: with alice owning ids 1 to 4 and a key on `(id, username)`,
the insertion of a second id 4 fails with a duplicate key, and what `Add` then
does is equal, event for event, to what it does when the driver fails. -/
theorem AddInsert_duplicate_not_distinguished :
    insertTask (quietEnv 0) (aliceThree ++ [⟨4, "jam", "alice"⟩]) ⟨4, "rice", "alice"⟩ =
        .error .duplicateKey ∧
      insertTask { quietEnv 0 with execFails := true }
          (aliceThree ++ [⟨4, "jam", "alice"⟩]) ⟨4, "rice", "alice"⟩ = .error .driver ∧
      ¬ (AddInsert (quietEnv 0) ⟨aliceLedger, aliceThree ++ [⟨4, "jam", "alice"⟩]⟩
            ⟨4, "rice"⟩ "alice" ≠
          AddInsert { quietEnv 0 with execFails := true }
            ⟨aliceLedger, aliceThree ++ [⟨4, "jam", "alice"⟩]⟩ ⟨4, "rice"⟩ "alice") :=
  ⟨rfl, rfl, fun h => h rfl⟩

/-- C7, amended: when the store keeps a key on `(id, username)` and a row with the
computed id already exists for the user, the `INSERT` of `Add` fails with a
duplicate key, `Add` answers 500 "Error inserting task", which is the very run
it produces when the driver fails, and the database is left as it was: the
existing row is neither overwritten nor duplicated. -/
theorem AddInsert_duplicate_key (env : Env) (db : DB) (newTask : Task) (u : String)
    (hexec : env.execFails = false) (hkey : env.taskKey = true)
    (hdup : newTask.Id ∈ ownedIds db.tasks u) :
    insertTask env db.tasks ⟨newTask.Id, newTask.Desc, u⟩ = .error .duplicateKey ∧
      AddInsert env db newTask u =
        ⟨db, [.dbCall (.insertTask newTask.Id newTask.Desc u),
              .httpError "Error inserting task" 500]⟩ ∧
      AddInsert env db newTask u =
        AddInsert { env with execFails := true } db newTask u ∧
      (AddInsert env db newTask u).db.tasks = db.tasks := by
  obtain ⟨t, ht, hu, hid⟩ := (mem_ownedIds db.tasks u newTask.Id).mp hdup
  have hany : db.tasks.any (fun t => decide (t.id = newTask.Id ∧ t.username = u)) = true := by
    rw [List.any_eq_true]
    exact ⟨t, ht, decide_eq_true ⟨hid, hu⟩⟩
  have hcond : (env.taskKey &&
      db.tasks.any (fun t => decide (t.id = newTask.Id ∧ t.username = u))) = true := by
    rw [hkey, hany]; rfl
  have hins : insertTask env db.tasks ⟨newTask.Id, newTask.Desc, u⟩ =
      .error .duplicateKey := by
    unfold insertTask
    rw [if_neg (by simp [hexec]), if_pos hcond]
  have hdrv : insertTask { env with execFails := true } db.tasks
      ⟨newTask.Id, newTask.Desc, u⟩ = .error .driver := by
    unfold insertTask
    rw [if_pos rfl]
  refine ⟨hins, ?_, ?_, ?_⟩
  · simp only [AddInsert, hins]
  · simp only [AddInsert, hins, hdrv]
  · simp only [AddInsert, hins]

theorem AddInsert_duplicate_key_witness :
    idSelection (quietEnv 0).idMax aliceThree "alice" = .ok 4 ∧
      (AddInsert (quietEnv 0) ⟨aliceLedger, aliceThree⟩ ⟨4, "jam"⟩ "alice").db.tasks =
        aliceThree ++ [⟨4, "jam", "alice"⟩] ∧
      (4 : Int) ∈ ownedIds (aliceThree ++ [⟨4, "jam", "alice"⟩]) "alice" ∧
      AddInsert (quietEnv 0) ⟨aliceLedger, aliceThree ++ [⟨4, "jam", "alice"⟩]⟩
          ⟨4, "rice"⟩ "alice" =
        ⟨⟨aliceLedger, aliceThree ++ [⟨4, "jam", "alice"⟩]⟩,
          [.dbCall (.insertTask 4 "rice" "alice"), .httpError "Error inserting task" 500]⟩ :=
  ⟨rfl, rfl, by decide,
    (AddInsert_duplicate_key (quietEnv 0) ⟨aliceLedger, aliceThree ++ [⟨4, "jam", "alice"⟩]⟩
      ⟨4, "rice"⟩ "alice" rfl rfl (by decide)).2.1⟩

/-- C8 fails on the code: a `GET /tasks` under a valid session in which `rows.Scan`
returns an error on a row ends in `log.Fatal`, that is in process exit, and
writes no response. -/
theorem ListTasks_scan_error_exits :
    (serveRoute .list { quietEnv Minute with scanFails := fun _ => true }
        ⟨aliceLedger, aliceThree⟩ aliceGet).trace =
      [.dbCall (.sessionByToken "tok-a"), .serve, .dbCall (.listTasks "tok-a"), .fatal] :=
  rfl

/-! ## Exact runs of the handlers -/

theorem countP_matchesRow_eq_zero (tasks : List TaskRow) (id : Int) (u : String) :
    tasks.countP (matchesRow id u) = 0 ↔ id ∉ ownedIds tasks u := by
  rw [List.countP_eq_zero, mem_ownedIds]
  constructor
  · rintro h ⟨t, ht, hu, hid⟩
    exact h t ht (decide_eq_true ⟨hid, hu⟩)
  · intro h t ht hmatch
    have := of_decide_eq_true hmatch
    exact h ⟨t, ht, this.2, this.1⟩

theorem Delete_run (env : Env) (db : DB) (r : Request) (token u : String) (t : Task)
    (hbody : r.body = some t) (hid : 0 < t.Id) (hcookie : r.cookie = some token)
    (huser : userQuery env db token = .ok u) (hexec : env.execFails = false)
    (hrows : env.rowsAffectedFails = false) :
    Delete env db r =
      ⟨{ db with tasks := db.tasks.filter (fun x => !(matchesRow t.Id u x)) },
        [.dbCall (.userByToken token), .dbCall (.deleteTask t.Id u),
          if t.Id ∈ ownedIds db.tasks u then .json .deleted
          else .httpError "Task not found" 404]⟩ := by
  have hid' : ¬ t.Id ≤ 0 := not_le.mpr hid
  simp only [Delete, hbody, hid', hcookie, huser, hexec, hrows, if_false,
    Bool.false_eq_true, countP_matchesRow_eq_zero]
  split_ifs with h <;> simp

theorem Update_run (env : Env) (db : DB) (r : Request) (token u : String) (t : Task)
    (hbody : r.body = some t) (hid : 0 < t.Id) (hdesc : t.Desc ≠ "")
    (hcookie : r.cookie = some token)
    (huser : userQuery env db token = .ok u) (hexec : env.execFails = false)
    (hrows : env.rowsAffectedFails = false) :
    Update env db r =
      ⟨{ db with tasks := db.tasks.map (fun x =>
          if matchesRow t.Id u x then { x with description := t.Desc } else x) },
        [.dbCall (.userByToken token), .dbCall (.updateTask t.Id t.Desc u),
          if t.Id ∈ ownedIds db.tasks u then .json (.updated t)
          else .httpError "Task not found" 404]⟩ := by
  have hid' : ¬ (t.Id ≤ 0 ∨ t.Desc = "") := by
    rintro (h | h)
    · omega
    · exact hdesc h
  simp only [Update, hbody, hid', hcookie, huser, hexec, hrows, if_false,
    Bool.false_eq_true, countP_matchesRow_eq_zero]
  split_ifs with h <;> simp

theorem Add_tasks_of_user (env : Env) (db : DB) (r : Request) (token u : String)
    (hcookie : r.cookie = some token) (huser : userQuery env db token = .ok u) :
    (Add env db r).db.tasks = db.tasks ∨
      ∃ k desc, (Add env db r).db.tasks = db.tasks ++ [⟨k, desc, u⟩] := by
  unfold Add
  simp only [hcookie, huser]
  split
  · exact Or.inl rfl
  · split
    · exact Or.inl rfl
    · split
      · exact Or.inl rfl
      · simp only [AddInsert, Run.after]
        split
        · exact Or.inl rfl
        · rename_i tasks' hins
          exact Or.inr ⟨_, _, insertTask_cases _ _ _ _ hins⟩

theorem Update_tasks_of_user (env : Env) (db : DB) (r : Request) (token u : String)
    (hcookie : r.cookie = some token) (huser : userQuery env db token = .ok u) :
    (Update env db r).db.tasks = db.tasks ∨
      ∃ id desc, (Update env db r).db.tasks =
        db.tasks.map (fun t =>
          if matchesRow id u t then { t with description := desc } else t) := by
  unfold Update
  simp only [hcookie, huser]
  repeat' split
  all_goals first
    | exact Or.inl rfl
    | exact Or.inr ⟨_, _, rfl⟩

theorem Delete_tasks_of_user (env : Env) (db : DB) (r : Request) (token u : String)
    (hcookie : r.cookie = some token) (huser : userQuery env db token = .ok u) :
    (Delete env db r).db.tasks = db.tasks ∨
      ∃ id, (Delete env db r).db.tasks =
        db.tasks.filter (fun t => !(matchesRow id u t)) := by
  unfold Delete
  simp only [hcookie, huser]
  repeat' split
  all_goals first
    | exact Or.inl rfl
    | exact Or.inr ⟨_, rfl⟩

theorem ownedRows_append_other (tasks : List TaskRow) (k : Int) (desc u v : String)
    (hne : v ≠ u) : ownedRows (tasks ++ [⟨k, desc, u⟩]) v = ownedRows tasks v := by
  have : ¬ u = v := fun h => hne h.symm
  simp [ownedRows, List.filter_append, this]

theorem ownedRows_update_other (tasks : List TaskRow) (id : Int) (desc u v : String)
    (hne : v ≠ u) :
    ownedRows (tasks.map (fun t =>
      if matchesRow id u t then { t with description := desc } else t)) v =
      ownedRows tasks v := by
  induction tasks with
  | nil => rfl
  | cons t rest ih =>
    unfold ownedRows at ih ⊢
    rw [List.map_cons]
    by_cases hm : matchesRow id u t = true
    · have htu : t.username = u := (of_decide_eq_true hm).2
      have htv : ¬ t.username = v := fun h => hne (h.symm.trans htu)
      simp only [hm, if_true, List.filter_cons, htv, decide_False, Bool.false_eq_true,
        if_false]
      exact ih
    · simp only [hm, if_false, List.filter_cons, Bool.false_eq_true]
      rw [ih]

theorem ownedRows_delete_other (tasks : List TaskRow) (id : Int) (u v : String)
    (hne : v ≠ u) :
    ownedRows (tasks.filter (fun t => !(matchesRow id u t))) v = ownedRows tasks v := by
  unfold ownedRows
  rw [List.filter_filter]
  apply List.filter_congr
  intro t _
  by_cases htv : t.username = v
  · have : matchesRow id u t = false := by
      unfold matchesRow
      rw [decide_eq_false_iff_not]
      rintro ⟨_, htu⟩
      exact hne (htv.symm.trans htu)
    simp [htv, this]
  · simp [htv]

theorem map_update_of_not_owned (tasks : List TaskRow) (id : Int) (desc u : String)
    (hnot : id ∉ ownedIds tasks u) :
    tasks.map (fun t =>
      if matchesRow id u t then { t with description := desc } else t) = tasks := by
  have hall : ∀ t ∈ tasks, matchesRow id u t = false := by
    intro t ht
    unfold matchesRow
    rw [decide_eq_false_iff_not]
    rintro ⟨hid, hu⟩
    exact hnot ((mem_ownedIds tasks u id).mpr ⟨t, ht, hu, hid⟩)
  conv_rhs => rw [← List.map_id tasks]
  apply List.map_congr_left
  intro t ht
  simp [hall t ht]

theorem filter_delete_of_not_owned (tasks : List TaskRow) (id : Int) (u : String)
    (hnot : id ∉ ownedIds tasks u) :
    tasks.filter (fun t => !(matchesRow id u t)) = tasks := by
  rw [List.filter_eq_self]
  intro t ht
  have : matchesRow id u t = false := by
    unfold matchesRow
    rw [decide_eq_false_iff_not]
    rintro ⟨hid, hu⟩
    exact hnot ((mem_ownedIds tasks u id).mpr ⟨t, ht, hu, hid⟩)
  simp [this]

theorem caller_ownedRows (next : Handler) (env : Env) (db : DB) (r : Request) (v : String)
    (hnext : ownedRows (next env db r).db.tasks v = ownedRows db.tasks v) :
    ownedRows (caller next env db r).db.tasks v = ownedRows db.tasks v := by
  rcases caller_tasks next env db r with heq | heq
  · rw [heq]
  · rw [heq, hnext]

/-- C10: for two distinct users `u` and `v`, an `Add`, `Update` or `Delete` run
under a cookie that the handler resolves to `u` leaves the rows owned by `v` as
they were, whatever the request body and whatever storage calls fail, and so
does the same request served behind `caller`.  When the request passes
validation, no storage call fails and `u` owns no task with the requested id,
`Update` and `Delete` answer 404 "Task not found" and leave the whole database
as it was, whoever else owns a task with that id. -/
theorem other_users_tasks_unchanged (env : Env) (db : DB) (r : Request)
    (token u v : String) (hcookie : r.cookie = some token)
    (huser : userQuery env db token = .ok u) (hne : v ≠ u) :
    ownedRows (Add env db r).db.tasks v = ownedRows db.tasks v ∧
      ownedRows (Update env db r).db.tasks v = ownedRows db.tasks v ∧
      ownedRows (Delete env db r).db.tasks v = ownedRows db.tasks v ∧
      (∀ route : Route,
        ownedRows (serveRoute route env db r).db.tasks v = ownedRows db.tasks v) ∧
      (∀ t : Task, r.body = some t → 0 < t.Id → t.Id ∉ ownedIds db.tasks u →
        env.execFails = false → env.rowsAffectedFails = false →
        Delete env db r =
            ⟨db, [.dbCall (.userByToken token), .dbCall (.deleteTask t.Id u),
                  .httpError "Task not found" 404]⟩ ∧
          (t.Desc ≠ "" →
            Update env db r =
              ⟨db, [.dbCall (.userByToken token), .dbCall (.updateTask t.Id t.Desc u),
                    .httpError "Task not found" 404]⟩)) := by
  have hadd : ownedRows (Add env db r).db.tasks v = ownedRows db.tasks v := by
    rcases Add_tasks_of_user env db r token u hcookie huser with heq | ⟨k, desc, heq⟩
    · rw [heq]
    · rw [heq, ownedRows_append_other _ _ _ _ _ hne]
  have hupd : ownedRows (Update env db r).db.tasks v = ownedRows db.tasks v := by
    rcases Update_tasks_of_user env db r token u hcookie huser with heq | ⟨id, desc, heq⟩
    · rw [heq]
    · rw [heq, ownedRows_update_other _ _ _ _ _ hne]
  have hdel : ownedRows (Delete env db r).db.tasks v = ownedRows db.tasks v := by
    rcases Delete_tasks_of_user env db r token u hcookie huser with heq | ⟨id, heq⟩
    · rw [heq]
    · rw [heq, ownedRows_delete_other _ _ _ _ hne]
  refine ⟨hadd, hupd, hdel, ?_, ?_⟩
  · intro route
    cases route <;> simp only [serveRoute]
    · exact caller_ownedRows _ env db r v (by rw [ListTasks_db])
    · exact caller_ownedRows _ env db r v hadd
    · exact caller_ownedRows _ env db r v hupd
    · exact caller_ownedRows _ env db r v hdel
  · intro t hbody hid hnot hexec hrows
    constructor
    · rw [Delete_run env db r token u t hbody hid hcookie huser hexec hrows,
        filter_delete_of_not_owned _ _ _ hnot, if_neg hnot]
    · intro hdesc
      rw [Update_run env db r token u t hbody hid hdesc hcookie huser hexec hrows,
        map_update_of_not_owned _ _ _ _ hnot, if_neg hnot]

theorem other_users_tasks_unchanged_witness :
    aliceOnTwo.cookie = some "tok-a" ∧
      userQuery (quietEnv Minute) ⟨aliceLedger, sharedTable⟩ "tok-a" = .ok "alice" ∧
      "bob" ≠ "alice" ∧ (2 : Int) ∈ ownedIds sharedTable "bob" ∧
      (2 : Int) ∉ ownedIds sharedTable "alice" ∧
      Delete (quietEnv Minute) ⟨aliceLedger, sharedTable⟩ aliceOnTwo =
        ⟨⟨aliceLedger, sharedTable⟩,
          [.dbCall (.userByToken "tok-a"), .dbCall (.deleteTask 2 "alice"),
            .httpError "Task not found" 404]⟩ ∧
      ownedRows (Add (quietEnv Minute) ⟨aliceLedger, sharedTable⟩ aliceOnTwo).db.tasks "bob" =
        ownedRows sharedTable "bob" :=
  ⟨rfl, rfl, by decide, by decide, by decide,
    ((other_users_tasks_unchanged (quietEnv Minute) ⟨aliceLedger, sharedTable⟩ aliceOnTwo
      "tok-a" "alice" "bob" rfl rfl (by decide)).2.2.2.2 ⟨2, "rice"⟩ rfl (by decide)
      (by decide) rfl rfl).1,
    (other_users_tasks_unchanged (quietEnv Minute) ⟨aliceLedger, sharedTable⟩ aliceOnTwo
      "tok-a" "alice" "bob" rfl rfl (by decide)).1⟩

/-! ## Reuse of freed ids -/

theorem Add_no_fatal (env : Env) (db : DB) (r : Request) :
    Event.fatal ∉ (Add env db r).trace := by
  unfold Add AddInsert Run.after
  repeat' split
  all_goals simp

theorem Update_no_fatal (env : Env) (db : DB) (r : Request) :
    Event.fatal ∉ (Update env db r).trace := by
  unfold Update
  repeat' split
  all_goals first | (simp; done) | (dsimp only; split <;> simp)

theorem Delete_no_fatal (env : Env) (db : DB) (r : Request) :
    Event.fatal ∉ (Delete env db r).trace := by
  unfold Delete
  repeat' split
  all_goals first | (simp; done) | (dsimp only; split <;> simp)

theorem caller_no_fatal (next : Handler) (env : Env) (db : DB) (r : Request)
    (hnext : Event.fatal ∉ (next env db r).trace) :
    Event.fatal ∉ (caller next env db r).trace := by
  unfold caller
  repeat' split
  all_goals first | (simp; done) | (dsimp only; split <;> simp [hnext])

theorem ListTasks_fatal_iff (env : Env) (db : DB) (r : Request) (token : String)
    (hcookie : r.cookie = some token) :
    Event.fatal ∈ (ListTasks env db r).trace ↔
      env.listQueryFails = false ∧ scanRows env.scanFails (listRows db token) = none := by
  unfold ListTasks
  simp only [hcookie]
  cases hq : env.listQueryFails
  · cases hs : scanRows env.scanFails (listRows db token) with
    | none => simp
    | some ts => by_cases hl : ts.length = 0 <;> simp [hl]
  · simp

end Todo
